import Mathlib

/-!
Verification development for the socks-proxy-agent core (src/agent.ts).

The TypeScript source is shallowly embedded:
* JavaScript strings are Lean `String`s; JS numbers flowing through the
  proxy-parsing code are `Int` (the code only compares them with `===`,
  truthiness-tests them, and stores them);
* a field that may be `undefined` is an `Option`;
* JS truthiness of a string value is modelled by `strTruthy` (absent or
  empty is falsy); truthiness of a generic request-option value by
  `jsTruthy`;
* functions that `throw` return `Except`;
* the external collaborators (Node's `url.parse`, `dns.lookup`, the socks
  library, `tls.connect`) are modelled as parameters or as reified call
  descriptions (`SocksCall`, `TlsCall`): the embedding records exactly the
  arguments the code passes to them.
-/

namespace SocksAgent

/-- JS truthiness of a possibly-absent string: `undefined` and the empty
string are falsy, every other string is truthy. -/
def strTruthy : Option String → Bool
  | none => false
  | some s => !(s == "")

/-- The JS expression `a || b` on possibly-absent strings: yields `a` when
`a` is truthy, otherwise yields `b` (whatever `b` is). -/
def jsOrStr (a b : Option String) : Option String :=
  if strTruthy a then a else b

/-- Digits of a decimal prefix folded to a number; `none` when the prefix
has no digit (JS `parseInt` returning `NaN`). -/
def parseDigits (cs : List Char) : Option Nat :=
  let digits := cs.takeWhile Char.isDigit
  if digits.isEmpty then none
  else some (digits.foldl (fun a c => 10 * a + (c.toNat - 48)) 0)

/-- JS `parseInt(s, 10)`: skip leading whitespace, optional sign, parse the
longest decimal-digit prefix; `none` models `NaN`. -/
def jsParseInt (s : String) : Option Int :=
  let cs := s.toList.dropWhile (fun c => c = ' ' || c = '\t' || c = '\n' || c = '\r')
  match cs with
  | '-' :: rest => (parseDigits rest).map (fun n => -(n : Int))
  | '+' :: rest => (parseDigits rest).map (fun n => (n : Int))
  | _ => (parseDigits cs).map (fun n => (n : Int))

/-- JS `s.split(sep)` for a single-character separator, on character
lists. -/
def splitOnCharList : List Char → Char → List (List Char)
  | [], _ => [[]]
  | c :: cs, sep =>
    let rest := splitOnCharList cs sep
    if c = sep then [] :: rest
    else
      match rest with
      | [] => [[c]]
      | g :: gs => (c :: g) :: gs

/-- JS `s.split(sep)` for a single-character separator. -/
def jsSplit (s : String) (sep : Char) : List String :=
  (splitOnCharList s.toList sep).map (fun cs => String.mk cs)

/-- The fields of `SocksProxyAgentOptions` (and of Node's `url.parse`
output) that `parseSocksProxy` reads. A JS `number` port is `Sum.inl`, a
string port is `Sum.inr`. -/
structure SocksProxyAgentOptions where
  hostname : Option String := none
  host : Option String := none
  port : Option (Sum Int String) := none
  protocol : Option String := none
  type : Option Int := none
  userId : Option String := none
  username : Option String := none
  password : Option String := none
  auth : Option String := none
deriving DecidableEq

/-- One SOCKS hop descriptor (the `SocksProxy` object built at agent.ts
lines 81-105). `userId`/`password` are the non-enumerable credential
properties: they are attached only when the computed credential is
truthy. -/
structure SocksProxy where
  host : String
  port : Int
  type : Int
  userId : Option String := none
  password : Option String := none
deriving DecidableEq

/-- The `TypeError`s thrown by `parseSocksProxy`. -/
inductive ParseError where
  | noHost
  | invalidProtocol (protocol : String)
  | invalidType (t : Int)
deriving DecidableEq

/-- agent.ts lines 37-47: numeric port taken as-is, string port run through
`parseInt(. , 10)` (with `NaN` modelled as `0`, which the following falsy
check treats the same way), then `if (!port) port = 1080`. -/
def resolvePort (p : Option (Sum Int String)) : Int :=
  let port : Int :=
    match p with
    | some (Sum.inl n) => n
    | some (Sum.inr s) => (jsParseInt s).getD 0
    | none => 0
  if port = 0 then 1080 else port

/-- agent.ts lines 49-71: the `switch (opts.protocol)` with its
fall-throughs flattened into a table. `socks4:` sets `lookup = true` and
falls through to `socks4a:` (type 4); `socks5:` sets `lookup = true` and
falls through to `socks:`/`socks5h:` (type 5). A falsy (absent or empty)
protocol skips the switch, leaving the defaults `lookup = false`,
`type = 5`. -/
def protocolToLookupType (protocol : Option String) : Except ParseError (Bool × Int) :=
  if strTruthy protocol then
    match protocol.getD "" with
    | "socks4:" => .ok (true, 4)
    | "socks4a:" => .ok (false, 4)
    | "socks5:" => .ok (true, 5)
    | "socks:" => .ok (false, 5)
    | "socks5h:" => .ok (false, 5)
    | p => .error (.invalidProtocol p)
  else .ok (false, 5)

/-- agent.ts lines 73-79: an explicit numeric `type` of 4 or 5 overrides
the scheme-derived type; any other explicit value throws. -/
def applyTypeOverride (schemeType : Int) (t : Option Int) : Except ParseError Int :=
  match t with
  | none => .ok schemeType
  | some t => if t = 4 ∨ t = 5 then .ok t else .error (.invalidType t)

/-- agent.ts lines 87-93: `userId = opts.userId || opts.username`,
`password = opts.password`, and when `opts.auth` is truthy both are
reassigned from `opts.auth.split(':')` components 0 and 1. -/
def resolveCreds (opts : SocksProxyAgentOptions) : Option String × Option String :=
  let userId := jsOrStr opts.userId opts.username
  let password := opts.password
  if strTruthy opts.auth then
    let auth := jsSplit (opts.auth.getD "") ':'
    (auth[0]?, auth[1]?)
  else (userId, password)

/-- agent.ts lines 94-105: a credential property is defined on the proxy
object only when the computed value is truthy. -/
def credProp (c : Option String) : Option String :=
  if strTruthy c then c else none

/-- agent.ts lines 24-108, `parseSocksProxy`: host check, port
resolution, protocol switch, explicit-type override, credential
resolution, in source order (so a missing host is reported before an
invalid protocol, which is reported before an invalid type). -/
def parseSocksProxy (opts : SocksProxyAgentOptions) :
    Except ParseError (Bool × SocksProxy) :=
  let host := jsOrStr opts.hostname opts.host
  if strTruthy host then
    match protocolToLookupType opts.protocol with
    | .error e => .error e
    | .ok (lookup, schemeType) =>
      match applyTypeOverride schemeType opts.type with
      | .error e => .error e
      | .ok ty =>
        .ok (lookup,
          { host := host.getD ""
            port := resolvePort opts.port
            type := ty
            userId := credProp (resolveCreds opts).1
            password := credProp (resolveCreds opts).2 })
  else .error .noHost

/-! ## Agent construction (agent.ts lines 115-148) -/

/-- One element of the constructor argument after array normalization:
a URL string, a structured options object, or a falsy value (`null`,
`undefined`, ...; constructing with no argument at all reaches the loop as
the single falsy element `undefined`). -/
inductive RawOpt where
  | str (s : String)
  | obj (o : SocksProxyAgentOptions)
  | falsy
deriving DecidableEq

/-- JS falsiness of a raw constructor element (`!rawOpt` at agent.ts line
137): a falsy primitive, or the empty string; objects are truthy. -/
def RawOpt.isFalsy : RawOpt → Bool
  | .str s => s == ""
  | .obj _ => false
  | .falsy => true

/-- agent.ts lines 131-135: a string element is run through Node's
`url.parse` (an external collaborator, passed in as a function); an object
element is pushed as-is. A falsy element is also pushed (just before the
loop throws), modelled by the empty options object: it is never parsed
because the throw aborts construction first. -/
def toOpts (urlParse : String → SocksProxyAgentOptions) : RawOpt → SocksProxyAgentOptions
  | .str s => urlParse s
  | .obj o => o
  | .falsy => {}

/-- The `TypeError`s thrown by the constructor. -/
inductive CtorError where
  | falsySpec
  | parseErr (e : ParseError)
deriving DecidableEq

/-- agent.ts lines 129-142: the normalization loop. Each element is
converted (strings via `url.parse`) and then checked for falsiness; the
first falsy element throws, before any descriptor parsing happens. -/
def collectOpts (urlParse : String → SocksProxyAgentOptions) :
    List RawOpt → Except CtorError (List SocksProxyAgentOptions)
  | [] => .ok []
  | r :: rs =>
    if r.isFalsy then .error .falsySpec
    else
      match collectOpts urlParse rs with
      | .error e => .error e
      | .ok os => .ok (toOpts urlParse r :: os)

/-- agent.ts line 145: `opts.map(o => parseSocksProxy(o))`, with the first
parse failure aborting construction. -/
def parseAll : List SocksProxyAgentOptions → Except ParseError (List (Bool × SocksProxy))
  | [] => .ok []
  | o :: os =>
    match parseSocksProxy o with
    | .error e => .error e
    | .ok lp =>
      match parseAll os with
      | .error e => .error e
      | .ok rest => .ok (lp :: rest)

/-- The agent state set up by the constructor: `this.lookups` and
`this.proxies` (agent.ts lines 116-117, 146-147). Nothing else in the
class ever writes these fields. -/
structure AgentState where
  lookups : List Bool
  proxies : List SocksProxy
deriving DecidableEq

/-- agent.ts lines 119-148, `new SocksProxyAgent(rawOpts)` after the
array normalization of lines 120-126 (a non-array argument `x` arrives
here as the one-element list `[x]`; in particular `new SocksProxyAgent()`
arrives as the single falsy element). -/
def constructAgent (urlParse : String → SocksProxyAgentOptions)
    (rawOpts : List RawOpt) : Except CtorError AgentState :=
  match collectOpts urlParse rawOpts with
  | .error e => .error e
  | .ok opts =>
    match parseAll opts with
    | .error e => .error (.parseErr e)
    | .ok parsed => .ok { lookups := parsed.map Prod.fst, proxies := parsed.map Prod.snd }

/-! ## Per-request connection establishment (agent.ts lines 156-226) -/

/-- A value in the per-request options object (`RequestOptions`). -/
inductive JsValue where
  | vStr (s : String)
  | vNum (n : Int)
  | vBool (b : Bool)
  | vNull
deriving DecidableEq

/-- A JS object as seen by `for key in obj` and property access: an
association list of enumerable properties. -/
abbrev JsObj := List (String × JsValue)

/-- Property access `obj[key]`, `none` for an absent property. -/
def jsGet : JsObj → String → Option JsValue
  | [], _ => none
  | (k, v) :: rest, key => if k = key then some v else jsGet rest key

/-- JS truthiness of a possibly-absent property value. -/
def jsTruthy : Option JsValue → Bool
  | none => false
  | some .vNull => false
  | some (.vStr s) => !(s == "")
  | some (.vNum n) => !(n == 0)
  | some (.vBool b) => b

/-- JS string coercion, used where the code passes an option value where a
string flows (the destination host). -/
def jsValToStr : JsValue → String
  | .vStr s => s
  | .vNum n => toString n
  | .vBool b => if b then "true" else "false"
  | .vNull => "null"

/-- agent.ts lines 210-226, `omit(obj, ...keys)`: copy every enumerable
property whose key is not in `keys` into a fresh object; `obj` itself is
not written to (the embedding is pure, so only the read-only use is
representable, which is exactly what the source does). -/
def omitKeys : JsObj → List String → JsObj
  | [], _ => []
  | (k, v) :: rest, keys =>
    if keys.contains k then omitKeys rest keys
    else (k, v) :: omitKeys rest keys

/-- Destination passed to the socks library (`{ host, port }` at agent.ts
lines 177/186). -/
structure SocksDestination where
  host : String
  port : Option JsValue
deriving DecidableEq

/-- The call made into the socks library: `SocksClient.createConnection`
with a single proxy (agent.ts lines 174-182) or
`SocksClient.createConnectionChain` with the whole proxy list in order
(lines 183-192); both with `command: connect`. -/
inductive SocksCall where
  | connection (proxy : SocksProxy) (dest : SocksDestination)
  | connectionChain (proxies : List SocksProxy) (dest : SocksDestination)
deriving DecidableEq

/-- The destination a socks call tunnels to. -/
def SocksCall.destOf : SocksCall → SocksDestination
  | .connection _ d => d
  | .connectionChain _ d => d

/-- The proxy descriptors a socks call uses, in hop order. -/
def SocksCall.proxiesUsed : SocksCall → List SocksProxy
  | .connection p _ => [p]
  | .connectionChain ps _ => ps

/-- The call made into `tls.connect` (agent.ts lines 199-203): the spread
of `omit(opts, host, hostname, path, port)` plus the already-established
tunneled socket as transport (represented structurally: a `TlsCall` is
always layered on the `SocksCall` of the same request, no new TCP
connection exists in the code path) and the chosen `servername`. -/
structure TlsCall where
  options : JsObj
  servername : String
deriving DecidableEq

/-- Everything a successful `callback` invocation does: whether the
destination host went through `dnsLookup`, the socks-library call whose
socket is returned, and the `tls.connect` upgrade layered on that socket
(`none` when `secureEndpoint` is falsy and the raw tunneled socket is
returned unchanged). -/
structure ConnResult where
  lookupPerformed : Bool
  socks : SocksCall
  tls : Option TlsCall
deriving DecidableEq

/-- The errors `callback` can raise before a tunnel attempt. -/
inductive CbError where
  | noHost
  | dnsFail (msg : String)
deriving DecidableEq

/-- JS truthiness of an array value: arrays are objects, hence always
truthy. Models the `&& lookups` conjunct at agent.ts line 168. -/
def jsArrayTruthy (_lookups : List Bool) : Bool :=
  true

/-- agent.ts line 168: `lookups.length > 0 && lookups`. -/
def lookupCondition (lookups : List Bool) : Bool :=
  decide (0 < lookups.length) && jsArrayTruthy lookups

/-- agent.ts lines 168-171: when the lookup condition holds the host is
replaced by the `dns.lookup` result (the resolver is the external
collaborator `dns`); a resolver error propagates. -/
def resolveHost (lookups : List Bool) (dns : String → Except String String)
    (host : String) : Except CbError String :=
  if lookupCondition lookups then
    match dns host with
    | .ok h => .ok h
    | .error msg => .error (.dnsFail msg)
  else .ok host

/-- agent.ts lines 173-192: `proxies.length === 1` selects the single-hop
`createConnection`, anything else the chained `createConnectionChain`. -/
def buildSocksCall (proxies : List SocksProxy) (dest : SocksDestination) : SocksCall :=
  match proxies with
  | [p] => .connection p dest
  | ps => .connectionChain ps dest

/-- agent.ts lines 194-204: when `opts.secureEndpoint` is truthy, upgrade
the tunneled socket via `tls.connect` with the original options minus
host/hostname/path/port and `servername = opts.servername || host` (where
`host` is the possibly-DNS-resolved destination host used for the
tunnel). -/
def buildTls (opts : JsObj) (host : String) : Option TlsCall :=
  if jsTruthy (jsGet opts "secureEndpoint") then
    some
      { options := omitKeys opts ["host", "hostname", "path", "port"]
        servername :=
          if jsTruthy (jsGet opts "servername")
          then jsValToStr ((jsGet opts "servername").getD JsValue.vNull)
          else host }
  else none

/-- agent.ts lines 156-207, `callback(req, opts)`: reject a falsy
`opts.host`, optionally resolve the destination host, call the socks
library (single-hop or chained), and optionally wrap the resulting socket
in TLS. The returned `ConnResult` records those calls. -/
def callback (lookups : List Bool) (proxies : List SocksProxy)
    (dns : String → Except String String) (opts : JsObj) :
    Except CbError ConnResult :=
  if jsTruthy (jsGet opts "host") then
    match resolveHost lookups dns (jsValToStr ((jsGet opts "host").getD JsValue.vNull)) with
    | .error e => .error e
    | .ok host =>
      .ok
        { lookupPerformed := lookupCondition lookups
          socks := buildSocksCall proxies { host := host, port := jsGet opts "port" }
          tls := buildTls opts host }
  else .error .noHost

/-! ## Concrete witness inputs -/

/-- Constant stand-in for the url-parse collaborator in the C3 witness. -/
def c3urlParse : String → SocksProxyAgentOptions :=
  fun _ => { hostname := some "s", protocol := some "socks:", port := some (Sum.inl 1080) }

/-- A mixed string/object two-hop input for the C3 witness. -/
def c3rawOpts : List RawOpt :=
  [RawOpt.str "socks://s:1080",
   RawOpt.obj { hostname := some "t", protocol := some "socks4:", port := some (Sum.inl 1081) }]

/-- The agent state the C3 witness input constructs. -/
def c3agent : AgentState :=
  { lookups := [false, true]
    proxies := [{ host := "s", port := 1080, type := 5 }, { host := "t", port := 1081, type := 4 }] }

/-- Request options for the C4 witness: a secure endpoint with extra TLS
options. -/
def c4opts : JsObj :=
  [("host", JsValue.vStr "example.com"), ("port", JsValue.vNum 443),
   ("secureEndpoint", JsValue.vBool true), ("rejectUnauthorized", JsValue.vBool false)]

/-- The connect result the C4 witness input produces. -/
def c4res : ConnResult :=
  { lookupPerformed := false
    socks := .connection { host := "p", port := 1080, type := 5 }
      { host := "example.com", port := some (JsValue.vNum 443) }
    tls := some { options := [("secureEndpoint", JsValue.vBool true), ("rejectUnauthorized", JsValue.vBool false)]
                  servername := "example.com" } }


/-! ## Specification-side definitions

These follow the wording of the specification (spec.md), to be compared
with the code-side definitions above. -/

/-- Spec wording (section 4.1, scheme table): the protocol scheme maps to
a (scheme-derived type, resolution flag) pair; an absent (or empty, hence
absent in the JS-truthiness sense) protocol defaults to type 5 with
resolution flag false; any other scheme is invalid (`none`). -/
def schemeToTypeFlag (protocol : Option String) : Option (Int × Bool) :=
  if strTruthy protocol then
    match protocol.getD "" with
    | "socks4:" => some (4, true)
    | "socks4a:" => some (4, false)
    | "socks5:" => some (5, true)
    | "socks:" => some (5, false)
    | "socks5h:" => some (5, false)
    | _ => none
  else some (5, false)

/-- Spec wording (section 4.1): an explicit numeric type of 4 or 5
overrides the scheme-derived type; any other explicit value is invalid. -/
def specTypeOverride (schemeType : Int) (t : Option Int) : Option Int :=
  match t with
  | none => some schemeType
  | some t => if t = 4 ∨ t = 5 then some t else none

/-- Spec wording (section 4.1, port rule): an already-numeric port is
taken as supplied, a string port is parsed base-10; an absent, zero or
unparsable port defaults to 1080. -/
def portPerSpec : Option (Sum Int String) → Int
  | none => 1080
  | some (Sum.inl n) => if n = 0 then 1080 else n
  | some (Sum.inr s) =>
    match jsParseInt s with
    | none => 1080
    | some v => if v = 0 then 1080 else v

/-- The supplied port is not negative: absent, an unparsable string, a
non-negative number, or a string parsing to a non-negative number. -/
def portNonneg : Option (Sum Int String) → Bool
  | none => true
  | some (Sum.inl n) => decide (0 ≤ n)
  | some (Sum.inr s) =>
    match jsParseInt s with
    | none => true
    | some v => decide (0 ≤ v)

/-- The text before the first occurrence of `sep`. -/
def beforeSep (sep : Char) (cs : List Char) : List Char :=
  cs.takeWhile (fun c => !(c == sep))

/-- The text after the first occurrence of `sep`, `none` when `sep` does
not occur. -/
def afterSep (sep : Char) : List Char → Option (List Char)
  | [] => none
  | c :: cs => if c = sep then some cs else afterSep sep cs

/-! ## Helper lemmas -/

lemma strTruthy_some_iff (o : Option String) :
    strTruthy o = true ↔ ∃ s, o = some s ∧ s ≠ "" := by
  cases o with
  | none => simp [strTruthy]
  | some s => simp [strTruthy]

lemma strTruthy_getD_ne (o : Option String) (h : strTruthy o = true) :
    o.getD "" ≠ "" := by
  rcases (strTruthy_some_iff o).mp h with ⟨s, rfl, hs⟩
  simpa using hs

lemma protocolToLookupType_ok_table (pr : Option String) (l : Bool) (t : Int)
    (h : protocolToLookupType pr = .ok (l, t)) :
    schemeToTypeFlag pr = some (t, l) := by
  unfold protocolToLookupType at h
  unfold schemeToTypeFlag
  split at h
  next htr =>
    simp only [htr, if_true]
    split at h <;> simp_all
  next htr =>
    simp only [htr]
    simp_all

lemma protocolToLookupType_of_table_none (pr : Option String)
    (h : schemeToTypeFlag pr = none) :
    protocolToLookupType pr = .error (.invalidProtocol (pr.getD "")) := by
  unfold schemeToTypeFlag at h
  unfold protocolToLookupType
  split at h
  next htr =>
    simp only [htr, if_true]
    split at h <;> simp_all
  next htr =>
    simp_all

lemma protocolToLookupType_type (pr : Option String) (l : Bool) (t : Int)
    (h : protocolToLookupType pr = .ok (l, t)) : t = 4 ∨ t = 5 := by
  unfold protocolToLookupType at h
  split at h
  · split at h <;> simp_all
  · simp_all

lemma applyTypeOverride_ok_inv (t0 : Int) (ty : Option Int) (t : Int)
    (h : applyTypeOverride t0 ty = .ok t) :
    (ty = none ∧ t = t0) ∨ (ty = some t ∧ (t = 4 ∨ t = 5)) := by
  cases ty with
  | none =>
    simp only [applyTypeOverride, Except.ok.injEq] at h
    exact Or.inl ⟨rfl, h.symm⟩
  | some x =>
    simp only [applyTypeOverride] at h
    split at h
    next hx =>
      simp only [Except.ok.injEq] at h
      subst h
      exact Or.inr ⟨rfl, hx⟩
    next => simp at h

lemma applyTypeOverride_spec (t0 : Int) (ty : Option Int) (t : Int)
    (h : applyTypeOverride t0 ty = .ok t) :
    specTypeOverride t0 ty = some t := by
  cases ty with
  | none =>
    simp only [applyTypeOverride, Except.ok.injEq] at h
    simp [specTypeOverride, h]
  | some x =>
    simp only [applyTypeOverride] at h
    split at h
    next hx =>
      simp only [Except.ok.injEq] at h
      subst h
      simp [specTypeOverride, hx]
    next => simp at h

lemma resolvePort_eq_portPerSpec (po : Option (Sum Int String)) :
    resolvePort po = portPerSpec po := by
  unfold resolvePort portPerSpec
  rcases po with _ | po
  · rfl
  rcases po with n | s
  · rfl
  · cases h : jsParseInt s <;> simp [h]

lemma resolvePort_pos (po : Option (Sum Int String)) (h : portNonneg po = true) :
    0 < resolvePort po := by
  rw [resolvePort_eq_portPerSpec]
  rcases po with _ | (n | s)
  · norm_num [portPerSpec]
  · simp only [portNonneg, decide_eq_true_eq] at h
    simp only [portPerSpec]
    split <;> omega
  · simp only [portNonneg] at h
    cases hp : jsParseInt s with
    | none => simp [portPerSpec, hp]
    | some v =>
      rw [hp] at h
      simp only [decide_eq_true_eq] at h
      simp only [portPerSpec, hp]
      split <;> omega

/-- Inversion of a successful `parseSocksProxy`: the host was truthy, the
protocol switch and the type override succeeded, and the descriptor is
assembled from the individual field resolutions. -/
lemma parseSocksProxy_ok_inv (opts : SocksProxyAgentOptions) (l : Bool) (p : SocksProxy)
    (h : parseSocksProxy opts = .ok (l, p)) :
    strTruthy (jsOrStr opts.hostname opts.host) = true ∧
    ∃ t0, protocolToLookupType opts.protocol = .ok (l, t0) ∧
      applyTypeOverride t0 opts.type = .ok p.type ∧
      p = { host := (jsOrStr opts.hostname opts.host).getD ""
            port := resolvePort opts.port
            type := p.type
            userId := credProp (resolveCreds opts).1
            password := credProp (resolveCreds opts).2 } := by
  simp only [parseSocksProxy] at h
  by_cases htr : strTruthy (jsOrStr opts.hostname opts.host) = true
  · rw [if_pos htr] at h
    refine ⟨htr, ?_⟩
    split at h
    · simp at h
    next lookup schemeType heq =>
      split at h
      · simp at h
      next ty heq2 =>
        simp only [Except.ok.injEq, Prod.mk.injEq] at h
        obtain ⟨hl, hp⟩ := h
        subst hl
        subst hp
        exact ⟨schemeType, heq, heq2, rfl⟩
  · rw [if_neg htr] at h
    simp at h

lemma omitKeys_jsGet (obj : JsObj) (keys : List String) (k : String) :
    jsGet (omitKeys obj keys) k =
      if k ∈ keys then none else jsGet obj k := by
  induction obj with
  | nil => simp [omitKeys, jsGet]
  | cons hd tl ih =>
    obtain ⟨k1, v⟩ := hd
    by_cases hc : k1 ∈ keys
    · rw [show omitKeys ((k1, v) :: tl) keys = omitKeys tl keys by simp [omitKeys, hc]]
      by_cases hk : k1 = k
      · subst hk
        simp [ih, hc, jsGet]
      · simp [ih, jsGet, hk]
    · rw [show omitKeys ((k1, v) :: tl) keys = (k1, v) :: omitKeys tl keys by
        simp [omitKeys, hc]]
      by_cases hk : k1 = k
      · subst hk
        simp [jsGet, hc]
      · simp [jsGet, hk, ih]

lemma omitKeys_mem_keys (obj : JsObj) (keys : List String) (k : String) :
    k ∈ (omitKeys obj keys).map Prod.fst ↔
      k ∈ obj.map Prod.fst ∧ ¬ k ∈ keys := by
  induction obj with
  | nil => simp [omitKeys]
  | cons hd tl ih =>
    obtain ⟨k1, v⟩ := hd
    by_cases hc : k1 ∈ keys
    · rw [show omitKeys ((k1, v) :: tl) keys = omitKeys tl keys by simp [omitKeys, hc]]
      rw [ih]
      by_cases hk : k1 = k
      · subst hk
        simp [hc]
      · simp [Ne.symm hk]
    · rw [show omitKeys ((k1, v) :: tl) keys = (k1, v) :: omitKeys tl keys by
        simp [omitKeys, hc]]
      by_cases hk : k1 = k
      · subst hk
        simp [hc]
      · simp [Ne.symm hk, ih]

lemma collectOpts_ok (urlParse : String → SocksProxyAgentOptions) :
    ∀ rawOpts os, collectOpts urlParse rawOpts = .ok os →
      os = rawOpts.map (toOpts urlParse) := by
  intro rawOpts
  induction rawOpts with
  | nil =>
    intro os h
    simp only [collectOpts, Except.ok.injEq] at h
    simp [h.symm]
  | cons r rs ih =>
    intro os h
    simp only [collectOpts] at h
    split at h
    · simp at h
    · split at h
      · simp at h
      next os2 heq =>
        simp only [Except.ok.injEq] at h
        subst h
        simp [ih os2 heq]

lemma collectOpts_any_falsy (urlParse : String → SocksProxyAgentOptions) :
    ∀ rawOpts, rawOpts.any RawOpt.isFalsy = true →
      collectOpts urlParse rawOpts = .error .falsySpec := by
  intro rawOpts
  induction rawOpts with
  | nil => simp
  | cons r rs ih =>
    intro h
    rw [List.any_cons] at h
    by_cases hf : r.isFalsy = true
    · simp [collectOpts, hf]
    · simp only [hf, Bool.false_or] at h
      simp [collectOpts, hf, ih h]

lemma parseAll_ok :
    ∀ os parsed, parseAll os = .ok parsed →
      parsed.length = os.length ∧
      ∀ i, i < os.length → ∃ o lp, os[i]? = some o ∧ parsed[i]? = some lp ∧
        parseSocksProxy o = .ok lp := by
  intro os
  induction os with
  | nil =>
    intro parsed h
    simp only [parseAll, Except.ok.injEq] at h
    subst h
    simp
  | cons o os ih =>
    intro parsed h
    simp only [parseAll] at h
    split at h
    · simp at h
    next lp heq =>
      split at h
      · simp at h
      next rest heq2 =>
        simp only [Except.ok.injEq] at h
        subst h
        obtain ⟨hlen, hind⟩ := ih rest heq2
        refine ⟨by simp [hlen], ?_⟩
        intro i hi
        cases i with
        | zero => exact ⟨o, lp, by simp, by simp, heq⟩
        | succ j =>
          obtain ⟨o2, lp2, h1, h2, h3⟩ := hind j (by simpa using hi)
          exact ⟨o2, lp2, by simpa using h1, by simpa using h2, h3⟩

lemma constructAgent_ok_inv (urlParse : String → SocksProxyAgentOptions)
    (rawOpts : List RawOpt) (a : AgentState)
    (h : constructAgent urlParse rawOpts = .ok a) :
    ∃ parsed, parseAll (rawOpts.map (toOpts urlParse)) = .ok parsed ∧
      a.lookups = parsed.map Prod.fst ∧ a.proxies = parsed.map Prod.snd := by
  simp only [constructAgent] at h
  split at h
  · simp at h
  next os heq =>
    split at h
    · simp at h
    next parsed heq2 =>
      simp only [Except.ok.injEq] at h
      subst h
      rw [collectOpts_ok urlParse rawOpts os heq] at heq2
      exact ⟨parsed, heq2, rfl, rfl⟩

lemma buildSocksCall_destOf (ps : List SocksProxy) (d : SocksDestination) :
    (buildSocksCall ps d).destOf = d := by
  rcases ps with _ | ⟨p, _ | ⟨q, rest⟩⟩ <;> rfl

lemma buildSocksCall_proxiesUsed (ps : List SocksProxy) (d : SocksDestination) :
    (buildSocksCall ps d).proxiesUsed = ps := by
  rcases ps with _ | ⟨p, _ | ⟨q, rest⟩⟩ <;> rfl

/-- Inversion of a successful `callback`: the request host was truthy, the
DNS step succeeded, and the result records the lookup condition, the socks
call on the (possibly resolved) destination, and the conditional TLS
upgrade. -/
lemma callback_ok_inv (lookups : List Bool) (proxies : List SocksProxy)
    (dns : String → Except String String) (opts : JsObj) (res : ConnResult)
    (h : callback lookups proxies dns opts = .ok res) :
    jsTruthy (jsGet opts "host") = true ∧
    ∃ host,
      resolveHost lookups dns (jsValToStr ((jsGet opts "host").getD JsValue.vNull)) = .ok host ∧
      res = { lookupPerformed := lookupCondition lookups
              socks := buildSocksCall proxies { host := host, port := jsGet opts "port" }
              tls := buildTls opts host } := by
  simp only [callback] at h
  by_cases htr : jsTruthy (jsGet opts "host") = true
  · rw [if_pos htr] at h
    refine ⟨htr, ?_⟩
    split at h
    · simp at h
    next host heq =>
      simp only [Except.ok.injEq] at h
      exact ⟨host, heq, h.symm⟩
  · rw [if_neg htr] at h
    simp at h

lemma resolveHost_ok_of_no_lookup (lookups : List Bool)
    (dns : String → Except String String) (host : String)
    (h : lookupCondition lookups = false) :
    resolveHost lookups dns host = .ok host := by
  simp [resolveHost, h]

lemma splitOnCharList_ne_nil (cs : List Char) (sep : Char) :
    splitOnCharList cs sep ≠ [] := by
  induction cs with
  | nil => simp [splitOnCharList]
  | cons c cs ih =>
    simp only [splitOnCharList]
    by_cases hc : c = sep
    · simp [hc]
    · simp only [hc, if_false]
      cases hr : splitOnCharList cs sep with
      | nil => exact absurd hr ih
      | cons g gs => simp

lemma splitOnCharList_get0 (cs : List Char) (sep : Char) :
    (splitOnCharList cs sep)[0]? = some (beforeSep sep cs) := by
  induction cs with
  | nil => simp [splitOnCharList, beforeSep]
  | cons c cs ih =>
    simp only [splitOnCharList]
    by_cases hc : c = sep
    · subst hc
      simp [beforeSep]
    · simp only [hc, if_false]
      cases hr : splitOnCharList cs sep with
      | nil => exact absurd hr (splitOnCharList_ne_nil cs sep)
      | cons g gs =>
        rw [hr] at ih
        simp only [List.getElem?_cons_zero, Option.some.injEq] at ih
        simp [beforeSep, hc, ih]

lemma splitOnCharList_get1 (cs : List Char) (sep : Char) :
    (splitOnCharList cs sep)[1]? = (afterSep sep cs).map (beforeSep sep) := by
  induction cs with
  | nil => simp [splitOnCharList, afterSep]
  | cons c cs ih =>
    simp only [splitOnCharList]
    by_cases hc : c = sep
    · subst hc
      simp [afterSep, splitOnCharList_get0]
    · simp only [hc, if_false]
      cases hr : splitOnCharList cs sep with
      | nil => exact absurd hr (splitOnCharList_ne_nil cs sep)
      | cons g gs =>
        rw [hr] at ih
        simp only [afterSep, hc, if_false]
        simpa using ih

lemma jsSplit_get0 (s : String) (sep : Char) :
    (jsSplit s sep)[0]? = some (String.mk (beforeSep sep s.toList)) := by
  rw [jsSplit, List.getElem?_map, splitOnCharList_get0]
  rfl

lemma jsSplit_get1 (s : String) (sep : Char) :
    (jsSplit s sep)[1]? =
      (afterSep sep s.toList).map (fun cs => String.mk (beforeSep sep cs)) := by
  rw [jsSplit, List.getElem?_map, splitOnCharList_get1]
  cases afterSep sep s.toList <;> rfl

/-! ## Claim theorems -/

/-- Claim C1 (code evaluation at the failing input): the claim says a DNS
lookup happens if and only if the chain is non-empty and at least one
resolution flag is true. The code's check at agent.ts line 168 is
`lookups.length > 0 && lookups`, and an array is always truthy, so a
non-empty chain triggers the lookup even when every flag is false. Here a
single socks4a hop (flag false, per the scheme table) still gets its
destination host replaced by the DNS result, and a DNS failure aborts the
request even though the claim says no lookup should happen at all. -/
theorem claim_C1_lookup_ignores_flags :
    constructAgent (fun _ => {}) [RawOpt.obj { hostname := some "proxy.test", protocol := some "socks4a:" }] =
      .ok { lookups := [false], proxies := [{ host := "proxy.test", port := 1080, type := 4 }] } ∧
    callback [false] [{ host := "proxy.test", port := 1080, type := 4 }]
        (fun _ => .ok "93.184.216.34")
        [("host", JsValue.vStr "example.com"), ("port", JsValue.vNum 80)] =
      .ok { lookupPerformed := true
            socks := .connection { host := "proxy.test", port := 1080, type := 4 }
              { host := "93.184.216.34", port := some (JsValue.vNum 80) }
            tls := none } ∧
    callback [false] [{ host := "proxy.test", port := 1080, type := 4 }]
        (fun _ => .error "ENOTFOUND")
        [("host", JsValue.vStr "example.com"), ("port", JsValue.vNum 80)] =
      .error (.dnsFail "ENOTFOUND") :=
  ⟨by rfl, by rfl, by rfl⟩

/-- Claim C6: the descriptor's port equals the supplied port when already
numeric, the base-10 parse when a numeric string, and defaults to 1080
when absent, zero or unparsable (`portPerSpec` is the spec-side port
rule). -/
theorem claim_C6_port (opts : SocksProxyAgentOptions) (l : Bool) (p : SocksProxy)
    (h : parseSocksProxy opts = .ok (l, p)) :
    p.port = portPerSpec opts.port := by
  obtain ⟨-, t0, -, -, hp⟩ := parseSocksProxy_ok_inv opts l p h
  rw [hp]
  exact resolvePort_eq_portPerSpec opts.port

theorem claim_C6_port_witness :
    parseSocksProxy { hostname := some "h", port := some (Sum.inr "8080"), protocol := some "socks:" } =
      .ok (false, { host := "h", port := 8080, type := 5 }) ∧
    SocksProxy.port { host := "h", port := 8080, type := 5 } = portPerSpec (some (Sum.inr "8080")) :=
  ⟨by rfl,
   claim_C6_port { hostname := some "h", port := some (Sum.inr "8080"), protocol := some "socks:" }
     false { host := "h", port := 8080, type := 5 } (by rfl)⟩

/-- Claim C7 (counterexample): a supplied negative numeric port is truthy,
so the default never kicks in and the parsed descriptor's port is the
negative number itself — the invariant "port is a positive integer after
defaulting" fails at port = -1. -/
theorem claim_C7_counterexample :
    parseSocksProxy { hostname := some "h", port := some (Sum.inl (-1)) } =
      .ok (false, { host := "h", port := -1, type := 5 }) ∧
    ¬ (0 < ({ host := "h", port := -1, type := 5 } : SocksProxy).port) :=
  ⟨by rfl, by decide⟩

/-- Claim C7 (amended): every parsed descriptor has type 4 or 5 and a
non-empty host; the port is positive provided the supplied port was not
negative; a missing host fails with the no-host error; an explicit type
other than 4 or 5 fails with the invalid-type error (when the host is
present and the scheme is valid, those being checked first). -/
theorem claim_C7_amended (opts : SocksProxyAgentOptions) :
    (∀ l p, parseSocksProxy opts = .ok (l, p) →
      (p.type = 4 ∨ p.type = 5) ∧ p.host ≠ "" ∧
      (portNonneg opts.port = true → 0 < p.port)) ∧
    (strTruthy (jsOrStr opts.hostname opts.host) = false →
      parseSocksProxy opts = .error .noHost) ∧
    (∀ t tf, opts.type = some t → t ≠ 4 → t ≠ 5 →
      strTruthy (jsOrStr opts.hostname opts.host) = true →
      protocolToLookupType opts.protocol = .ok tf →
      parseSocksProxy opts = .error (.invalidType t)) := by
  refine ⟨?_, ?_, ?_⟩
  · intro l p h
    obtain ⟨htr, t0, hproto, hty, hp⟩ := parseSocksProxy_ok_inv opts l p h
    refine ⟨?_, ?_, ?_⟩
    · rcases applyTypeOverride_ok_inv t0 opts.type p.type hty with ⟨-, rfl⟩ | ⟨-, htt⟩
      · exact protocolToLookupType_type opts.protocol l p.type hproto
      · exact htt
    · rw [hp]
      exact strTruthy_getD_ne _ htr
    · intro hnn
      rw [hp]
      exact resolvePort_pos opts.port hnn
  · intro hf
    simp [parseSocksProxy, hf]
  · intro t tf hty ht4 ht5 htr hproto
    obtain ⟨tl, tt⟩ := tf
    simp only [parseSocksProxy, htr, if_true, hproto, hty]
    simp [applyTypeOverride, ht4, ht5]

theorem claim_C7_amended_witness :
    parseSocksProxy { hostname := some "h", port := some (Sum.inr "99"), protocol := some "socks4:" } =
      .ok (true, { host := "h", port := 99, type := 4 }) ∧
    ((({ host := "h", port := 99, type := 4 } : SocksProxy).type = 4 ∨
      ({ host := "h", port := 99, type := 4 } : SocksProxy).type = 5) ∧
     ({ host := "h", port := 99, type := 4 } : SocksProxy).host ≠ "" ∧
     (portNonneg (some (Sum.inr "99")) = true →
      0 < ({ host := "h", port := 99, type := 4 } : SocksProxy).port)) ∧
    parseSocksProxy { port := some (Sum.inl 9) } = .error .noHost ∧
    parseSocksProxy { hostname := some "h", type := some 7 } = .error (.invalidType 7) :=
  ⟨by rfl,
   (claim_C7_amended { hostname := some "h", port := some (Sum.inr "99"), protocol := some "socks4:" }).1
     true { host := "h", port := 99, type := 4 } (by rfl),
   (claim_C7_amended { port := some (Sum.inl 9) }).2.1 (by rfl),
   (claim_C7_amended { hostname := some "h", type := some 7 }).2.2 7 (false, 5) (by rfl)
     (by decide) (by decide) (by rfl) (by rfl)⟩

/-- Claim C8: any falsy element among the raw constructor arguments (in
particular the single `undefined` of a no-argument construction) makes the
constructor throw the configuration error; the error is `falsySpec`, not a
parse error, showing it fires before any descriptor parsing, and the
`Except.error` result is the absence of a constructed agent. -/
theorem claim_C8_falsy_spec (urlParse : String → SocksProxyAgentOptions)
    (rawOpts : List RawOpt) (h : rawOpts.any RawOpt.isFalsy = true) :
    constructAgent urlParse rawOpts = .error .falsySpec := by
  simp [constructAgent, collectOpts_any_falsy urlParse rawOpts h]

theorem claim_C8_falsy_spec_witness :
    ([RawOpt.obj { hostname := some "h", protocol := some "socks:" }, RawOpt.falsy].any RawOpt.isFalsy = true) ∧
    constructAgent (fun _ => {})
        [RawOpt.obj { hostname := some "h", protocol := some "socks:" }, RawOpt.falsy] =
      .error .falsySpec :=
  ⟨by rfl,
   claim_C8_falsy_spec (fun _ => {})
     [RawOpt.obj { hostname := some "h", protocol := some "socks:" }, RawOpt.falsy] (by rfl)⟩

/-- Claim C9 (counterexample): constructing from an empty array throws
nothing — the loop body never runs — and yields an agent whose proxy chain
is empty, contradicting the claimed non-emptiness of the chain. -/
theorem claim_C9_counterexample :
    constructAgent (fun _ => {}) [] = .ok { lookups := [], proxies := [] } ∧
    ({ lookups := [], proxies := [] } : AgentState).proxies.length = 0 :=
  ⟨by rfl, by rfl⟩

/-- Claim C9 (amended): the chain is built once at construction (the
`AgentState` is a pure function of the constructor input) and is non-empty
whenever at least one spec was supplied; request-time connects only read
it: the proxies any successful connect call hands to the socks library are
exactly the construction-time chain, in order. -/
theorem claim_C9_amended (urlParse : String → SocksProxyAgentOptions)
    (rawOpts : List RawOpt) (a : AgentState)
    (h : constructAgent urlParse rawOpts = .ok a) :
    (rawOpts ≠ [] → a.proxies ≠ []) ∧
    (∀ dns opts res, callback a.lookups a.proxies dns opts = .ok res →
      res.socks.proxiesUsed = a.proxies) := by
  obtain ⟨parsed, hpa, hl, hp⟩ := constructAgent_ok_inv urlParse rawOpts a h
  constructor
  · intro hne hnil
    rw [hp] at hnil
    obtain ⟨hlen, -⟩ := parseAll_ok _ parsed hpa
    have hparsed : parsed = [] := by simpa using hnil
    subst hparsed
    simp at hlen
    exact hne (List.eq_nil_of_length_eq_zero hlen.symm)
  · intro dns opts res hres
    obtain ⟨-, host, -, hreq⟩ := callback_ok_inv a.lookups a.proxies dns opts res hres
    rw [hreq]
    exact buildSocksCall_proxiesUsed a.proxies _

theorem claim_C9_amended_witness :
    constructAgent (fun _ => {}) [RawOpt.obj { hostname := some "h", protocol := some "socks:" }] =
      .ok { lookups := [false], proxies := [{ host := "h", port := 1080, type := 5 }] } ∧
    callback [false] [{ host := "h", port := 1080, type := 5 }] (fun _ => .ok "d")
        [("host", JsValue.vStr "d")] =
      .ok { lookupPerformed := true
            socks := .connection { host := "h", port := 1080, type := 5 } { host := "d", port := none }
            tls := none } ∧
    ([{ host := "h", port := 1080, type := 5 }] : List SocksProxy) ≠ [] ∧
    SocksCall.proxiesUsed
        (ConnResult.socks
          { lookupPerformed := true
            socks := .connection { host := "h", port := 1080, type := 5 } { host := "d", port := none }
            tls := none }) =
      [{ host := "h", port := 1080, type := 5 }] :=
  ⟨by rfl, by rfl,
   (claim_C9_amended (fun _ => {}) [RawOpt.obj { hostname := some "h", protocol := some "socks:" }]
      { lookups := [false], proxies := [{ host := "h", port := 1080, type := 5 }] } (by rfl)).1
     (by simp),
   (claim_C9_amended (fun _ => {}) [RawOpt.obj { hostname := some "h", protocol := some "socks:" }]
      { lookups := [false], proxies := [{ host := "h", port := 1080, type := 5 }] } (by rfl)).2
     (fun _ => .ok "d") [("host", JsValue.vStr "d")]
     { lookupPerformed := true
       socks := .connection { host := "h", port := 1080, type := 5 } { host := "d", port := none }
       tls := none } (by rfl)⟩

/-- Claim C10: `omit(obj, ...keys)` yields an object whose enumerable keys
are exactly the enumerable keys of `obj` outside `keys`, each bound to the
value it has in `obj` (property lookup agrees wherever the key is kept and
is absent wherever it is dropped). The source function only reads `obj`
and writes a freshly created object; in this pure embedding that frame
condition is intrinsic — `omitKeys` is a function of `obj` and cannot
modify it. -/
theorem claim_C10_omit (obj : JsObj) (keys : List String) (k : String) :
    jsGet (omitKeys obj keys) k = (if k ∈ keys then none else jsGet obj k) ∧
    (k ∈ (omitKeys obj keys).map Prod.fst ↔ k ∈ obj.map Prod.fst ∧ ¬ k ∈ keys) :=
  ⟨omitKeys_jsGet obj keys k, omitKeys_mem_keys obj keys k⟩

/-- Claim C2 (counterexample): the claim says the scheme alone determines
the (type, resolution flag) pair, with socks5 giving type 5. But an
explicit numeric type field overrides the scheme-derived type (agent.ts
lines 73-79): a spec with protocol socks5 and type 4 parses to a type-4
descriptor. -/
theorem claim_C2_counterexample :
    parseSocksProxy { hostname := some "h", protocol := some "socks5:", type := some 4 } =
      .ok (true, { host := "h", port := 1080, type := 4 }) ∧
    ({ host := "h", port := 1080, type := 4 } : SocksProxy).type ≠ 5 :=
  ⟨by rfl, by decide⟩

/-- Claim C2 (amended): the scheme determines the resolution flag and the
scheme-derived type per the table (`schemeToTypeFlag`), with an absent or
empty protocol field defaulting to type 5, flag false; the descriptor's
final type is the scheme-derived type unless an explicit type field of 4
or 5 overrides it (`specTypeOverride`), the flag being unaffected; and
when the host is present, any other scheme fails with the invalid-protocol
error naming it. -/
theorem claim_C2_amended (opts : SocksProxyAgentOptions) :
    (∀ l p, parseSocksProxy opts = .ok (l, p) →
      ∃ t0, schemeToTypeFlag opts.protocol = some (t0, l) ∧
        specTypeOverride t0 opts.type = some p.type) ∧
    (schemeToTypeFlag opts.protocol = none →
      strTruthy (jsOrStr opts.hostname opts.host) = true →
      parseSocksProxy opts = .error (.invalidProtocol (opts.protocol.getD ""))) := by
  constructor
  · intro l p h
    obtain ⟨-, t0, hproto, hty, -⟩ := parseSocksProxy_ok_inv opts l p h
    exact ⟨t0, protocolToLookupType_ok_table _ _ _ hproto,
      applyTypeOverride_spec _ _ _ hty⟩
  · intro hnone htr
    have hp := protocolToLookupType_of_table_none _ hnone
    simp only [parseSocksProxy, htr, if_true, hp]

theorem claim_C2_amended_witness :
    (∃ t0, schemeToTypeFlag (some "socks4:") = some (t0, true) ∧
      specTypeOverride t0 none = some ({ host := "h", port := 1080, type := 4 } : SocksProxy).type) ∧
    parseSocksProxy { hostname := some "h", protocol := some "http:" } =
      .error (.invalidProtocol "http:") :=
  ⟨(claim_C2_amended { hostname := some "h", protocol := some "socks4:" }).1
     true { host := "h", port := 1080, type := 4 } (by rfl),
   (claim_C2_amended { hostname := some "h", protocol := some "http:" }).2 (by rfl) (by rfl)⟩

/-- Claim C5 (counterexample): the claim says a combined auth field is
split on the FIRST colon so a password may itself contain colons. The code
splits on every colon and keeps component 1 only (agent.ts lines 89-93):
for auth user:pa:ss the password becomes pa, not pa:ss. -/
theorem claim_C5_counterexample :
    parseSocksProxy { hostname := some "h", username := some "bob", password := some "sep", auth := some "user:pa:ss" } =
      .ok (false, { host := "h", port := 1080, type := 5, userId := some "user", password := some "pa" }) ∧
    (some "pa" : Option String) ≠ some "pa:ss" :=
  ⟨by rfl, by decide⟩

/-- Claim C5 (amended): when a truthy combined auth field is present it is
split on every colon and the first two components are taken — userId is
the text before the first colon, password the text between the first and
second colon (absent when there is no colon, and anything after a second
colon is dropped) — overriding the separately supplied fields; otherwise
userId falls back to userId-or-username and password to password. In every
case the descriptor keeps a credential only when the computed value is
truthy (`credProp`). -/
theorem claim_C5_amended (opts : SocksProxyAgentOptions) (l : Bool) (p : SocksProxy)
    (h : parseSocksProxy opts = .ok (l, p)) :
    (strTruthy opts.auth = true →
      p.userId = credProp (some (String.mk (beforeSep ':' (opts.auth.getD "").toList))) ∧
      p.password = credProp ((afterSep ':' (opts.auth.getD "").toList).map
        (fun cs => String.mk (beforeSep ':' cs)))) ∧
    (strTruthy opts.auth = false →
      p.userId = credProp (jsOrStr opts.userId opts.username) ∧
      p.password = credProp opts.password) := by
  obtain ⟨-, t0, -, -, hp⟩ := parseSocksProxy_ok_inv opts l p h
  have hu : p.userId = credProp (resolveCreds opts).1 := by rw [hp]
  have hw : p.password = credProp (resolveCreds opts).2 := by rw [hp]
  rw [hu, hw]
  constructor
  · intro ha
    have h1 : (resolveCreds opts).1 = (jsSplit (opts.auth.getD "") ':')[0]? := by
      simp [resolveCreds, ha]
    have h2 : (resolveCreds opts).2 = (jsSplit (opts.auth.getD "") ':')[1]? := by
      simp [resolveCreds, ha]
    rw [h1, h2, jsSplit_get0, jsSplit_get1]
    exact ⟨rfl, rfl⟩
  · intro ha
    have h1 : (resolveCreds opts).1 = jsOrStr opts.userId opts.username := by
      simp [resolveCreds, ha]
    have h2 : (resolveCreds opts).2 = opts.password := by
      simp [resolveCreds, ha]
    rw [h1, h2]
    exact ⟨rfl, rfl⟩

theorem claim_C5_amended_witness :
    parseSocksProxy { hostname := some "h", auth := some "user:pa:ss" } =
      .ok (false, { host := "h", port := 1080, type := 5, userId := some "user", password := some "pa" }) ∧
    strTruthy (some "user:pa:ss") = true ∧
    (({ host := "h", port := 1080, type := 5, userId := some "user", password := some "pa" } : SocksProxy).userId =
        credProp (some (String.mk (beforeSep ':' ("user:pa:ss" : String).toList))) ∧
     ({ host := "h", port := 1080, type := 5, userId := some "user", password := some "pa" } : SocksProxy).password =
        credProp ((afterSep ':' ("user:pa:ss" : String).toList).map
          (fun cs => String.mk (beforeSep ':' cs)))) :=
  ⟨by rfl, by rfl,
   (claim_C5_amended { hostname := some "h", auth := some "user:pa:ss" } false
      { host := "h", port := 1080, type := 5, userId := some "user", password := some "pa" }
      (by rfl)).1 (by rfl)⟩

/-- Claim C3: a constructed agent has exactly one (flag, descriptor) pair
per raw spec, in input order, each pair being the parse of its source spec
(strings going through the url-parse collaborator first); and a successful
connect call makes the single-hop socks call against the sole descriptor
when the chain has exactly one hop, and otherwise the chained call with
the whole chain in order. -/
theorem claim_C3_chain (urlParse : String → SocksProxyAgentOptions)
    (rawOpts : List RawOpt) (a : AgentState)
    (h : constructAgent urlParse rawOpts = .ok a) :
    a.proxies.length = rawOpts.length ∧ a.lookups.length = rawOpts.length ∧
    (∀ i, i < rawOpts.length →
      ∃ r l p, rawOpts[i]? = some r ∧ a.lookups[i]? = some l ∧ a.proxies[i]? = some p ∧
        parseSocksProxy (toOpts urlParse r) = .ok (l, p)) ∧
    (∀ dns opts res, callback a.lookups a.proxies dns opts = .ok res →
      (∀ q, a.proxies = [q] → res.socks = .connection q res.socks.destOf) ∧
      (a.proxies.length ≠ 1 → res.socks = .connectionChain a.proxies res.socks.destOf)) := by
  obtain ⟨parsed, hpa, hl, hp⟩ := constructAgent_ok_inv urlParse rawOpts a h
  obtain ⟨hlen, hind⟩ := parseAll_ok _ parsed hpa
  have hlen2 : parsed.length = rawOpts.length := by simpa using hlen
  refine ⟨by simp [hp, hlen2], by simp [hl, hlen2], ?_, ?_⟩
  · intro i hi
    obtain ⟨o, lp, ho, hlp, hparse⟩ := hind i (by simpa using hi)
    rw [List.getElem?_map] at ho
    cases hr : rawOpts[i]? with
    | none =>
      rw [hr] at ho
      simp at ho
    | some r =>
      rw [hr] at ho
      simp at ho
      subst ho
      refine ⟨r, lp.1, lp.2, rfl, ?_, ?_, ?_⟩
      · rw [hl, List.getElem?_map, hlp]
        rfl
      · rw [hp, List.getElem?_map, hlp]
        rfl
      · exact hparse
  · intro dns opts res hres
    obtain ⟨-, host, -, hreq⟩ := callback_ok_inv a.lookups a.proxies dns opts res hres
    subst hreq
    constructor
    · intro q hq
      rw [hq]
      simp [buildSocksCall, SocksCall.destOf]
    · intro hne
      rcases hps : a.proxies with _ | ⟨q, _ | ⟨q2, rest⟩⟩
      · simp [buildSocksCall, SocksCall.destOf]
      · rw [hps] at hne
        simp at hne
      · simp [buildSocksCall, SocksCall.destOf]

theorem claim_C3_chain_witness :
    constructAgent c3urlParse c3rawOpts = .ok c3agent ∧
    (c3agent.proxies.length = c3rawOpts.length ∧ c3agent.lookups.length = c3rawOpts.length ∧
     (∀ i, i < c3rawOpts.length →
       ∃ r l p, c3rawOpts[i]? = some r ∧ c3agent.lookups[i]? = some l ∧
         c3agent.proxies[i]? = some p ∧
         parseSocksProxy (toOpts c3urlParse r) = .ok (l, p)) ∧
     (∀ dns opts res, callback c3agent.lookups c3agent.proxies dns opts = .ok res →
       (∀ q, c3agent.proxies = [q] → res.socks = .connection q res.socks.destOf) ∧
       (c3agent.proxies.length ≠ 1 →
         res.socks = .connectionChain c3agent.proxies res.socks.destOf))) :=
  ⟨by rfl, claim_C3_chain c3urlParse c3rawOpts c3agent (by rfl)⟩

/-- Claim C4: on a successful connect whose request is a secure endpoint,
the TLS upgrade runs over the tunneled socket of that same request (a
`TlsCall` in this embedding is by construction layered on the request's
`SocksCall`; no other TCP connection exists in the model, mirroring
agent.ts lines 199-203 where the socket option is the tunneled socket),
its options agree with the original request options on every key except
host, hostname, path and port, which are dropped, and its server name is
the truthy servername option if present, else the destination host the
tunnel was built to. When the request is not a secure endpoint there is no
TLS call and the tunneled socket is returned unchanged. -/
theorem claim_C4_tls (lookups : List Bool) (proxies : List SocksProxy)
    (dns : String → Except String String) (opts : JsObj) (res : ConnResult)
    (h : callback lookups proxies dns opts = .ok res) :
    (jsTruthy (jsGet opts "secureEndpoint") = true →
      ∃ t, res.tls = some t ∧
        (∀ k, jsGet t.options k =
          if k ∈ (["host", "hostname", "path", "port"] : List String) then none
          else jsGet opts k) ∧
        t.servername =
          (if jsTruthy (jsGet opts "servername")
           then jsValToStr ((jsGet opts "servername").getD JsValue.vNull)
           else res.socks.destOf.host)) ∧
    (jsTruthy (jsGet opts "secureEndpoint") = false → res.tls = none) := by
  obtain ⟨-, host, -, hreq⟩ := callback_ok_inv lookups proxies dns opts res h
  constructor
  · intro hsec
    refine ⟨{ options := omitKeys opts ["host", "hostname", "path", "port"]
              servername :=
                if jsTruthy (jsGet opts "servername")
                then jsValToStr ((jsGet opts "servername").getD JsValue.vNull)
                else host }, ?_, ?_, ?_⟩
    · rw [hreq]
      simp [buildTls, hsec]
    · intro k
      exact omitKeys_jsGet opts ["host", "hostname", "path", "port"] k
    · rw [hreq]
      simp [buildSocksCall_destOf]
  · intro hsec
    rw [hreq]
    simp [buildTls, hsec]

theorem claim_C4_tls_witness :
    callback [] [{ host := "p", port := 1080, type := 5 }] (fun s => .ok s) c4opts = .ok c4res ∧
    jsTruthy (jsGet c4opts "secureEndpoint") = true ∧
    (∃ t, c4res.tls = some t ∧
      (∀ k, jsGet t.options k =
        if k ∈ (["host", "hostname", "path", "port"] : List String) then none
        else jsGet c4opts k) ∧
      t.servername =
        (if jsTruthy (jsGet c4opts "servername")
         then jsValToStr ((jsGet c4opts "servername").getD JsValue.vNull)
         else c4res.socks.destOf.host)) :=
  ⟨by rfl, by rfl,
   (claim_C4_tls [] [{ host := "p", port := 1080, type := 5 }] (fun s => .ok s) c4opts c4res
      (by rfl)).1 (by rfl)⟩

end SocksAgent
